import Mathlib

/-!
Verification of `sknetwork/embedding/gsvd.py` (class `GSVDEmbedding`).

The numerical pipeline of `GSVDEmbedding.fit` is embedded shallowly:
matrices are dense views over `ℚ` (a record of row count, column count and
an entry function), the sparse-matrix operations of the source are
translated to their dense semantics, `np.sqrt` is an explicit function
parameter `sq : ℚ → ℚ` (floating-point square roots are kept abstract; the
claims proved here only use `sq 0 = 0`), and the low-rank decomposer
collaborators are function parameters returning `Option` triples.
-/

namespace SknGsvd

/-- A real matrix with explicit dimensions; `entry i j` is meaningful for
`i < rows`, `j < cols`. This is the dense semantics shared by the
`np.ndarray` and `scipy.sparse` objects appearing in `gsvd.py`. -/
structure Mat where
  rows : ℕ
  cols : ℕ
  entry : ℕ → ℕ → ℚ

/-- A real vector with explicit length, e.g. the singular-value array
`sigma` returned by a decomposer. -/
structure Vect where
  len : ℕ
  entry : ℕ → ℚ

/-- Transposition, as in `adjacency.T` / `vt.T` in the source. -/
def Mat.transpose (A : Mat) : Mat :=
  ⟨A.cols, A.rows, fun i j => A.entry j i⟩

/-- Matrix–vector product, as in `adjacency.dot(np.ones(m_nodes))`. -/
def Mat.mulVec (A : Mat) (v : ℕ → ℚ) : ℕ → ℚ :=
  fun i => ∑ j in Finset.range A.cols, A.entry i j * v j

/-- Matrix–matrix product, as in `dhou.dot(adjacency.dot(dhin))`. -/
def Mat.mul (A B : Mat) : Mat :=
  ⟨A.rows, B.cols, fun i j => ∑ l in Finset.range A.cols, A.entry i l * B.entry l j⟩

/-- Scalar multiple, as in `np.sqrt(total_weight) * M`. -/
def Mat.smul (c : ℚ) (A : Mat) : Mat :=
  ⟨A.rows, A.cols, fun i j => c * A.entry i j⟩

/-- NumPy broadcasting `M * sigma` for a `(n, k)` array `M` and a length-`k`
array `sigma`: column `j` is multiplied by `sigma[j]` (source line 97). -/
def Mat.colScale (A : Mat) (s : ℕ → ℚ) : Mat :=
  ⟨A.rows, A.cols, fun i j => A.entry i j * s j⟩

/-- Extensional equality of matrices: same dimensions and same entries on
the meaningful index range. -/
def Mat.EqOn (A B : Mat) : Prop :=
  A.rows = B.rows ∧ A.cols = B.cols ∧
    ∀ i < A.rows, ∀ j < A.cols, A.entry i j = B.entry i j

instance (A B : Mat) : Decidable (Mat.EqOn A B) := by
  unfold Mat.EqOn; infer_instance

/-- Sum of all entries: `adjacency.data.sum()` (source line 73); the stored
data of a CSR matrix sums to the entrywise total since absent positions
are zero. -/
def totalWeight (A : Mat) : ℚ :=
  ∑ i in Finset.range A.rows, ∑ j in Finset.range A.cols, A.entry i j

/-- The all-ones vector `np.ones(n)`. -/
def ones (_n : ℕ) : ℕ → ℚ := fun _ => 1

/-- Out-degree vector `dou = adjacency.dot(np.ones(m_nodes))` (line 75). -/
def outDeg (A : Mat) : ℕ → ℚ := A.mulVec (ones A.cols)

/-- In-degree vector `din = adjacency.T.dot(np.ones(n_nodes))` (line 77). -/
def inDeg (A : Mat) : ℕ → ℚ := A.transpose.mulVec (ones A.rows)

/-- Embedding of lines 80–84 of the source:
`D = sparse.diags(np.sqrt(d), shape=(n, n), format='csr'); D.data = 1 / D.data`.
`sparse.diags` builds a DIA matrix and converts it to CSR; that conversion
masks out entries whose value is exactly zero (`scipy.sparse.dia_matrix.tocsc`
applies `mask &= (self.data != 0)`), so positions where `sqrt(d[i]) == 0`
are structural zeros and the in-place reciprocal `D.data = 1 / D.data`
touches only the stored (non-zero) diagonal values. -/
def invSqrtDiag (sq : ℚ → ℚ) (n : ℕ) (d : ℕ → ℚ) : Mat :=
  ⟨n, n, fun i j => if i = j ∧ sq (d i) ≠ 0 then 1 / sq (d i) else 0⟩

/-- The pseudo inverse square-root out-degree matrix `dhou` (line 80). -/
def dhouOf (sq : ℚ → ℚ) (A : Mat) : Mat := invSqrtDiag sq A.rows (outDeg A)

/-- The pseudo inverse square-root in-degree matrix `dhin` (line 83). -/
def dhinOf (sq : ℚ → ℚ) (A : Mat) : Mat := invSqrtDiag sq A.cols (inDeg A)

/-- The normalized operator `laplacian = dhou.dot(adjacency.dot(dhin))`
(line 86). -/
def laplacianOf (sq : ℚ → ℚ) (A : Mat) : Mat :=
  (dhouOf sq A).mul (A.mul (dhinOf sq A))

/-- Pre-centering node embedding, line 97:
`np.sqrt(total_weight) * dhou.dot(u) * sigma` (the trailing `* sigma`
broadcasts over columns). -/
def preEmbedding (sq : ℚ → ℚ) (A : Mat) (u : Mat) (sigma : Vect) : Mat :=
  (Mat.smul (sq (totalWeight A)) ((dhouOf sq A).mul u)).colScale sigma.entry

/-- Pre-centering feature embedding, line 98:
`np.sqrt(total_weight) * dhin.dot(vt.T)` — no singular-value factor. -/
def preFeatures (sq : ℚ → ℚ) (A : Mat) (vt : Mat) : Mat :=
  Mat.smul (sq (totalWeight A)) ((dhinOf sq A).mul vt.transpose)

/-- Center-of-mass shift, lines 100–101:
`E -= np.ones((n, 1)).dot(E.T.dot(d)[:, np.newaxis].T) / w`, i.e. the same
row `(E.T.dot(d)) / w` is subtracted from every row of `E`. -/
def centerRows (E : Mat) (d : ℕ → ℚ) (w : ℚ) : Mat :=
  ⟨E.rows, E.cols, fun i j => E.entry i j - (E.transpose.mulVec d) j / w⟩

/-- The exact runtime class of the object passed as `adjacency`, as
inspected by `type(adjacency) == ...` on lines 65 and 67. `type()` yields
the exact class, so an `np.matrix` instance (a subclass of `np.ndarray`)
has tag `ndarray_subclass`, distinct from `ndarray`. -/
inductive PyType
  | csr_matrix
  | ndarray
  | ndarray_subclass
  | csc_matrix
  | coo_matrix
  | lil_matrix
  | list_of_lists
deriving DecidableEq

/-- An input object: its exact runtime class together with the numeric
matrix it denotes (ignored by `fit` when the class is rejected). -/
structure PyObject where
  ty : PyType
  mat : Mat

/-- Errors `fit` can raise: the `TypeError` of lines 70–71, the
`AttributeError` produced by evaluating `linalg.svds` (see `linalgSvds`),
and any error propagated from the decomposer. -/
inductive PyError
  | typeError
  | attributeError
  | decomposerError
deriving DecidableEq

/-- The estimator state: `embedding_dimension` fixed at construction and
the three result attributes, `None` before the first successful fit
(lines 37–41). -/
structure GSVDEmbedding where
  embedding_dimension : ℕ
  embedding_ : Option Mat
  features_ : Option Mat
  singular_values_ : Option Vect

/-- `GSVDEmbedding.__init__` (lines 37–41). -/
def GSVDEmbedding.mk0 (k : ℕ) : GSVDEmbedding := ⟨k, none, none, none⟩

/-- Lines 65–71: exact-type dispatch on the input. A CSR matrix is kept;
a dense `np.ndarray` is converted to CSR (`sparse.csr_matrix(adjacency)`,
same entries, fresh object); anything else raises `TypeError`. -/
def toInternal (obj : PyObject) : Except PyError PyObject :=
  if obj.ty = PyType.csr_matrix then Except.ok obj
  else if obj.ty = PyType.ndarray then Except.ok ⟨PyType.csr_matrix, obj.mat⟩
  else Except.error PyError.typeError

/-- Type of the randomized decomposer `randomized_svd`: arguments are the
matrix, `n_components`, and the forwarded `n_iter`,
`power_iteration_normalizer` and `random_state` (each encoded as a `ℕ`);
`none` models a raised decomposer error. Modelled from the spec: the body
of `sknetwork.embedding.randomized_matrix_factorization.randomized_svd` is
not under `src/`; per the spec it is a deterministic function of exactly
these arguments (deterministic given its inputs and seed). -/
def DecompFun : Type := Mat → ℕ → ℕ → ℕ → ℕ → Option (Mat × Vect × Mat)

/-- Type of the exact decomposer `svds(matrix, k)`. -/
def ExactFun : Type := Mat → ℕ → Option (Mat × Vect × Mat)

/-- The object the non-randomized branch looks up at line 94: `linalg.svds`,
where `linalg` is the `scipy.linalg` module bound by
`from scipy import sparse, linalg` (line 11). `scipy.linalg` exposes dense
routines (`svd`, `svdvals`, `diagsvd`, ...) but defines no attribute
`svds` — sparse truncated SVD lives in `scipy.sparse.linalg` — so the
attribute lookup raises `AttributeError` before any decomposition runs. -/
def linalgSvds : Except PyError ExactFun := Except.error PyError.attributeError

/-- The observable outcome of one `fit` call: the estimator object after
the call, the value returned (`none` when an error was raised), the error
raised if any, and the caller's adjacency object after the call. -/
structure FitOutcome where
  self : GSVDEmbedding
  ret : Option GSVDEmbedding
  err : Option PyError
  adj : PyObject

/-- `GSVDEmbedding.fit` (lines 43–103). The caller's adjacency object is
never written to: lines 66/68 rebind a local name (conversion allocates a
fresh CSR matrix), the in-place updates `dhou.data = 1 / dhou.data` and
`dhin.data = ...` target matrices freshly built on lines 80/83, and the
`-=` updates on lines 100–101 target `self.embedding_` / `self.features_`;
hence the outcome's `adj` component is the unchanged input object. The
three result attributes are assigned (lines 96–101) only after the
decomposer call has returned; every raising statement (line 70, line 89,
line 94) precedes those assignments, so on any error the estimator state
is exactly the pre-call state. -/
def fit (sq : ℚ → ℚ) (rsvd : DecompFun) (est : GSVDEmbedding) (obj : PyObject)
    (randomized_decomposition : Bool) (nIter normIt seed : ℕ) : FitOutcome :=
  match toInternal obj with
  | Except.error e => ⟨est, none, some e, obj⟩
  | Except.ok objA =>
    let A := objA.mat
    let triple : Except PyError (Mat × Vect × Mat) :=
      if randomized_decomposition then
        match rsvd (laplacianOf sq A) est.embedding_dimension nIter normIt seed with
        | some t => Except.ok t
        | none => Except.error PyError.decomposerError
      else
        match linalgSvds with
        | Except.error e => Except.error e
        | Except.ok f =>
          match f (laplacianOf sq A) est.embedding_dimension with
          | some t => Except.ok t
          | none => Except.error PyError.decomposerError
    match triple with
    | Except.error e => ⟨est, none, some e, obj⟩
    | Except.ok (u, sigma, vt) =>
      let w := totalWeight A
      let est2 : GSVDEmbedding :=
        { est with
          singular_values_ := some sigma
          embedding_ := some (centerRows (preEmbedding sq A u sigma) (outDeg A) w)
          features_ := some (centerRows (preFeatures sq A vt) (inDeg A) w) }
      ⟨est2, some est2, none, obj⟩

/-- The shape contract of both decomposers (spec §6): on success `U` is
`(n, k)`, `Σ` has length `k`, `Vᵗ` is `(k, m)` for an `(n, m)` input. -/
def DecomposerContract (d : DecompFun) : Prop :=
  ∀ A k a b c u s vt, d A k a b c = some (u, s, vt) →
    u.rows = A.rows ∧ u.cols = k ∧ s.len = k ∧ vt.rows = k ∧ vt.cols = A.cols

/-- The spec's `diag(Σ)`: the `k × k` diagonal matrix of a length-`k`
vector. -/
def diagOfVect (s : Vect) : Mat :=
  ⟨s.len, s.len, fun i j => if i = j then s.entry i else 0⟩

end SknGsvd

namespace SknGsvd

section Helpers

variable {sq : ℚ → ℚ} {rsvd : DecompFun} {est : GSVDEmbedding}
variable {obj objA : PyObject} {r : Bool} {a b c : ℕ} {e : PyError}

/-- The estimator state stored by a successful `fit` (lines 96–101),
spelled with the staged definitions. -/
def successState (sq : ℚ → ℚ) (est : GSVDEmbedding) (A : Mat)
    (u : Mat) (sigma : Vect) (vt : Mat) : GSVDEmbedding :=
  { est with
    singular_values_ := some sigma
    embedding_ := some (centerRows (preEmbedding sq A u sigma) (outDeg A) (totalWeight A))
    features_ := some (centerRows (preFeatures sq A vt) (inDeg A) (totalWeight A)) }

theorem toInternal_ok_mat (hti : toInternal obj = Except.ok objA) :
    objA.mat = obj.mat ∧ objA.ty = PyType.csr_matrix := by
  unfold toInternal at hti
  by_cases h1 : obj.ty = PyType.csr_matrix
  · rw [if_pos h1] at hti
    injection hti with h; subst h; exact ⟨rfl, h1⟩
  · rw [if_neg h1] at hti
    by_cases h2 : obj.ty = PyType.ndarray
    · rw [if_pos h2] at hti
      injection hti with h; subst h; exact ⟨rfl, rfl⟩
    · rw [if_neg h2] at hti
      exact absurd hti (by simp)

theorem toInternal_error_ty (hti : toInternal obj = Except.error e) :
    e = PyError.typeError := by
  unfold toInternal at hti
  by_cases h1 : obj.ty = PyType.csr_matrix
  · rw [if_pos h1] at hti; exact absurd hti (by simp)
  · rw [if_neg h1] at hti
    by_cases h2 : obj.ty = PyType.ndarray
    · rw [if_pos h2] at hti; exact absurd hti (by simp)
    · rw [if_neg h2] at hti; injection hti with h; exact h.symm

theorem toInternal_error_iff :
    toInternal obj = Except.error PyError.typeError ↔
      ¬ (obj.ty = PyType.ndarray ∨ obj.ty = PyType.csr_matrix) := by
  unfold toInternal
  by_cases h1 : obj.ty = PyType.csr_matrix
  · rw [if_pos h1]; simp [h1]
  · rw [if_neg h1]
    by_cases h2 : obj.ty = PyType.ndarray
    · rw [if_pos h2]; simp [h2]
    · rw [if_neg h2]; simp [h1, h2]

theorem fit_of_toInternal_error (hti : toInternal obj = Except.error e) :
    fit sq rsvd est obj r a b c = ⟨est, none, some e, obj⟩ := by
  simp only [fit, hti]

theorem fit_exact_attr (hti : toInternal obj = Except.ok objA) :
    fit sq rsvd est obj false a b c = ⟨est, none, some PyError.attributeError, obj⟩ := by
  simp only [fit, hti, linalgSvds, Bool.false_eq_true, if_false]

theorem fit_rand_none (hti : toInternal obj = Except.ok objA)
    (hr : rsvd (laplacianOf sq objA.mat) est.embedding_dimension a b c = none) :
    fit sq rsvd est obj true a b c = ⟨est, none, some PyError.decomposerError, obj⟩ := by
  simp only [fit, hti, if_true, hr]

theorem fit_rand_some {u : Mat} {sigma : Vect} {vt : Mat}
    (hti : toInternal obj = Except.ok objA)
    (hr : rsvd (laplacianOf sq objA.mat) est.embedding_dimension a b c = some (u, sigma, vt)) :
    fit sq rsvd est obj true a b c =
      ⟨successState sq est objA.mat u sigma vt,
        some (successState sq est objA.mat u sigma vt), none, obj⟩ := by
  simp only [fit, hti, if_true, hr, successState]

theorem fit_success_inv (hok : (fit sq rsvd est obj r a b c).err = none) :
    ∃ objA u sigma vt,
      toInternal obj = Except.ok objA ∧ objA.mat = obj.mat ∧ r = true ∧
      rsvd (laplacianOf sq obj.mat) est.embedding_dimension a b c = some (u, sigma, vt) ∧
      (fit sq rsvd est obj r a b c).self = successState sq est obj.mat u sigma vt ∧
      (fit sq rsvd est obj r a b c).ret = some (successState sq est obj.mat u sigma vt) := by
  cases hti : toInternal obj with
  | error e =>
    rw [fit_of_toInternal_error hti] at hok
    exact absurd hok (by simp)
  | ok objA =>
    have hmat := (toInternal_ok_mat hti).1
    cases r with
    | false =>
      rw [fit_exact_attr hti] at hok
      exact absurd hok (by simp)
    | true =>
      cases hr : rsvd (laplacianOf sq objA.mat) est.embedding_dimension a b c with
      | none =>
        rw [fit_rand_none hti hr] at hok
        exact absurd hok (by simp)
      | some t =>
        obtain ⟨u, sigma, vt⟩ := t
        rw [hmat] at hr
        refine ⟨objA, u, sigma, vt, rfl, hmat, rfl, hr, ?_, ?_⟩
        · rw [fit_rand_some hti (by rw [hmat]; exact hr), hmat]
        · rw [fit_rand_some hti (by rw [hmat]; exact hr), hmat]

theorem fit_err_mem :
    (fit sq rsvd est obj r a b c).err = none ∨
    (fit sq rsvd est obj r a b c).err = some PyError.typeError ∧
      toInternal obj = Except.error PyError.typeError ∨
    (fit sq rsvd est obj r a b c).err = some PyError.attributeError ∨
    (fit sq rsvd est obj r a b c).err = some PyError.decomposerError := by
  cases hti : toInternal obj with
  | error e =>
    have he := toInternal_error_ty hti
    subst he
    rw [fit_of_toInternal_error hti]
    exact Or.inr (Or.inl ⟨rfl, rfl⟩)
  | ok objA =>
    cases r with
    | false =>
      rw [fit_exact_attr hti]
      exact Or.inr (Or.inr (Or.inl rfl))
    | true =>
      cases hr : rsvd (laplacianOf sq objA.mat) est.embedding_dimension a b c with
      | none =>
        rw [fit_rand_none hti hr]
        exact Or.inr (Or.inr (Or.inr rfl))
      | some t =>
        obtain ⟨u, sigma, vt⟩ := t
        rw [fit_rand_some hti hr]
        exact Or.inl rfl

theorem sum_outDeg (A : Mat) :
    ∑ i in Finset.range A.rows, outDeg A i = totalWeight A := by
  unfold outDeg Mat.mulVec totalWeight ones
  simp [mul_one]

theorem sum_inDeg (A : Mat) :
    ∑ j in Finset.range A.cols, inDeg A j = totalWeight A := by
  unfold inDeg Mat.mulVec Mat.transpose totalWeight ones
  simp only [mul_one]
  exact Finset.sum_comm

theorem centerRows_weighted_sum (E : Mat) (d : ℕ → ℚ) (w : ℚ) (hw : w ≠ 0)
    (hsum : ∑ i in Finset.range E.rows, d i = w) (j : ℕ) :
    ∑ i in Finset.range E.rows, d i * (centerRows E d w).entry i j = 0 := by
  have hexp : ∀ i, d i * (centerRows E d w).entry i j
      = d i * E.entry i j - d i * ((E.transpose.mulVec d) j / w) := by
    intro i; unfold centerRows; ring
  rw [Finset.sum_congr rfl (fun i _ => hexp i), Finset.sum_sub_distrib,
    ← Finset.sum_mul, hsum]
  have ht : (E.transpose.mulVec d) j = ∑ i in Finset.range E.rows, d i * E.entry i j := by
    unfold Mat.mulVec Mat.transpose
    exact Finset.sum_congr rfl (fun i _ => mul_comm _ _)
  rw [mul_comm w, div_mul_cancel₀ _ hw, ht, sub_self]

theorem smul_colScale_eqOn_diag (cst : ℚ) (M : Mat) (s : Vect) (hlen : s.len = M.cols) :
    Mat.EqOn ((Mat.smul cst M).colScale s.entry)
      (Mat.smul cst (M.mul (diagOfVect s))) := by
  refine ⟨rfl, hlen.symm, fun i _ j hj => ?_⟩
  show cst * M.entry i j * s.entry j
      = cst * ∑ l in Finset.range M.cols, M.entry i l * (if l = j then s.entry l else 0)
  have hj' : j < M.cols := hj
  rw [Finset.sum_congr rfl (fun l _ => by rw [mul_ite, mul_zero]),
    Finset.sum_ite_eq' (Finset.range M.cols) j (fun l => M.entry i l * s.entry l),
    if_pos (Finset.mem_range.mpr hj'), mul_assoc]

end Helpers

end SknGsvd

namespace SknGsvd

section MoreHelpers

variable {obj : PyObject}

theorem toInternal_ok_of_valid
    (h : obj.ty = PyType.csr_matrix ∨ obj.ty = PyType.ndarray) :
    ∃ objA, toInternal obj = Except.ok objA ∧
      objA.ty = PyType.csr_matrix ∧ objA.mat = obj.mat := by
  unfold toInternal
  rcases h with h | h
  · rw [if_pos h]
    exact ⟨obj, rfl, h, rfl⟩
  · have h1 : ¬ obj.ty = PyType.csr_matrix := by rw [h]; decide
    rw [if_neg h1, if_pos h]
    exact ⟨⟨PyType.csr_matrix, obj.mat⟩, rfl, rfl, rfl⟩

end MoreHelpers

section ConcreteData

/-- A concrete stand-in for `np.sqrt` used only to evaluate theorems at
concrete inputs (the claims below assume nothing about `sq` beyond
`sq 0 = 0`, which this function satisfies). -/
def sq0 : ℚ → ℚ := fun q => q

/-- The 2-node graph with edges 0→1 and 1→0. -/
def matW : Mat := ⟨2, 2, fun i j => if (i = 0 ∧ j = 1) ∨ (i = 1 ∧ j = 0) then 1 else 0⟩

/-- A CSR-typed input holding `matW`. -/
def objW : PyObject := ⟨PyType.csr_matrix, matW⟩

/-- A freshly constructed estimator with `embedding_dimension = 1`. -/
def estW : GSVDEmbedding := GSVDEmbedding.mk0 1

/-- A 2-node graph whose node 1 has zero out-degree and whose column 0 has
zero in-degree. -/
def matZ : Mat := ⟨2, 2, fun i j => if i = 0 ∧ j = 1 then 1 else 0⟩

/-- A CSR-typed input holding `matZ`. -/
def objZ : PyObject := ⟨PyType.csr_matrix, matZ⟩

/-- A concrete decomposer honouring the shape contract, used to evaluate
the theorems below at concrete inputs. -/
def rsvdW : DecompFun := fun A k _ _ _ =>
  some (⟨A.rows, k, fun _ _ => 1⟩, ⟨k, fun _ => 1⟩, ⟨k, A.cols, fun _ _ => 1⟩)

theorem rsvdW_contract : DecomposerContract rsvdW := by
  intro A k a b c u s vt h
  simp only [rsvdW, Option.some.injEq, Prod.mk.injEq] at h
  obtain ⟨hu, hs, hvt⟩ := h
  subst hu; subst hs; subst hvt
  exact ⟨rfl, rfl, rfl, rfl, rfl⟩

/-- The `U` factor `rsvdW` returns on a 2×2 input with `k = 1`. -/
def uW : Mat := ⟨2, 1, fun _ _ => 1⟩

/-- The `Σ` factor `rsvdW` returns with `k = 1`. -/
def sigmaW : Vect := ⟨1, fun _ => 1⟩

/-- The `Vᵗ` factor `rsvdW` returns on a 2×2 input with `k = 1`. -/
def vtW : Mat := ⟨1, 2, fun _ _ => 1⟩

/-- An estimator with the same dimension as `estW` but different (non-`None`)
prior result fields. -/
def estV : GSVDEmbedding := ⟨1, some matW, some matW, some sigmaW⟩

end ConcreteData

end SknGsvd

namespace SknGsvd

/-- Claim C1 (refuted by the code; the claim states the spec's intended
behaviour): on a valid CSR adjacency with `randomized_decomposition=False`,
`fit` does not run the exact truncated SVD — evaluating `linalg.svds`
(line 94) raises `AttributeError` because `linalg` is `scipy.linalg`
(line 11), which has no attribute `svds` — so the call fails before any
decomposition and stores nothing. -/
theorem exactBranchAttributeError :
    (fit sq0 rsvdW estW objW false 0 0 0).err = some PyError.attributeError ∧
    (fit sq0 rsvdW estW objW false 0 0 0).self = estW ∧
    (fit sq0 rsvdW estW objW false 0 0 0).self.embedding_ = none :=
  ⟨rfl, rfl, rfl⟩

/-- Claim C2: for a zero-out-degree node `i0` the inverse-square-root
degree matrix has a structural zero at `(i0, i0)` (the reciprocal is taken
only of non-zero stored entries), row `i0` of the normalized operator is
all-zero, and row `i0` of the pre-centering embedding is the zero vector
for every decomposer output; symmetrically for a zero-in-degree column;
and `fit` on a well-typed input does not raise provided the decomposer
returns. -/
theorem zeroDegreeSafe (sq : ℚ → ℚ) (rsvd : DecompFun) (est : GSVDEmbedding)
    (obj : PyObject) (nIter normIt seed : ℕ) (i0 j0 : ℕ)
    (hsq : sq 0 = 0) :
    (outDeg obj.mat i0 = 0 →
      (dhouOf sq obj.mat).entry i0 i0 = 0 ∧
      (∀ j, (laplacianOf sq obj.mat).entry i0 j = 0) ∧
      (∀ u s j, (preEmbedding sq obj.mat u s).entry i0 j = 0)) ∧
    (inDeg obj.mat j0 = 0 →
      (dhinOf sq obj.mat).entry j0 j0 = 0 ∧
      (∀ vt j, (preFeatures sq obj.mat vt).entry j0 j = 0)) ∧
    ((obj.ty = PyType.csr_matrix ∨ obj.ty = PyType.ndarray) →
      rsvd (laplacianOf sq obj.mat) est.embedding_dimension nIter normIt seed ≠ none →
      (fit sq rsvd est obj true nIter normIt seed).err = none) := by
  refine ⟨fun hd => ?_, fun hd => ?_, fun hty hr => ?_⟩
  · have hrow : ∀ l, (dhouOf sq obj.mat).entry i0 l = 0 := by
      intro l
      simp [dhouOf, invSqrtDiag, hd, hsq]
    refine ⟨hrow i0, fun j => ?_, fun u s j => ?_⟩
    · simp [laplacianOf, Mat.mul, hrow]
    · simp [preEmbedding, Mat.colScale, Mat.smul, Mat.mul, hrow]
  · have hcol : ∀ l, (dhinOf sq obj.mat).entry j0 l = 0 := by
      intro l
      simp [dhinOf, invSqrtDiag, hd, hsq]
    refine ⟨hcol j0, fun vt j => ?_⟩
    simp [preFeatures, Mat.smul, Mat.mul, hcol]
  · obtain ⟨objA, hti, htyA, hmat⟩ := toInternal_ok_of_valid hty
    cases hr2 : rsvd (laplacianOf sq objA.mat) est.embedding_dimension nIter normIt seed with
    | none =>
      rw [hmat] at hr2
      exact absurd hr2 hr
    | some t =>
      obtain ⟨u, sigma, vt⟩ := t
      rw [fit_rand_some hti hr2]

/-- Witness for `zeroDegreeSafe` at the concrete graph `matZ` (node 1 has
zero out-degree). -/
theorem zeroDegreeSafe_witness :
    (dhouOf sq0 objZ.mat).entry 1 1 = 0 ∧
    (laplacianOf sq0 objZ.mat).entry 1 0 = 0 ∧
    (fit sq0 rsvdW estW objZ true 0 0 0).err = none := by
  have h := zeroDegreeSafe sq0 rsvdW estW objZ 0 0 0 1 0 rfl
  have hdeg : outDeg objZ.mat 1 = 0 := by
    norm_num [objZ, matZ, outDeg, Mat.mulVec, ones, Finset.sum_range_succ]
  exact ⟨(h.1 hdeg).1, (h.1 hdeg).2.1 0,
    h.2.2 (Or.inl rfl) (fun hx => Option.noConfusion hx)⟩

/-- Claim C3: after a successful `fit` on an adjacency with positive total
weight, the degree-weighted sum of the stored embedding rows is zero in
every component, and symmetrically for the stored features with the
in-degrees. -/
theorem centeringInvariant (sq : ℚ → ℚ) (rsvd : DecompFun) (est : GSVDEmbedding)
    (obj : PyObject) (r : Bool) (nIter normIt seed : ℕ)
    (hw : 0 < totalWeight obj.mat)
    (hok : (fit sq rsvd est obj r nIter normIt seed).err = none) :
    (∀ E, (fit sq rsvd est obj r nIter normIt seed).self.embedding_ = some E →
      ∀ j, ∑ i in Finset.range E.rows, outDeg obj.mat i * E.entry i j = 0) ∧
    (∀ F, (fit sq rsvd est obj r nIter normIt seed).self.features_ = some F →
      ∀ j, ∑ i in Finset.range F.rows, inDeg obj.mat i * F.entry i j = 0) := by
  obtain ⟨objA, u, sigma, vt, hti, hmat, hrt, hr, hself, hret⟩ := fit_success_inv hok
  constructor
  · intro E hE j
    rw [hself] at hE
    have hE2 := Option.some.inj hE
    subst hE2
    exact centerRows_weighted_sum (preEmbedding sq obj.mat u sigma) (outDeg obj.mat)
      (totalWeight obj.mat) hw.ne' (sum_outDeg obj.mat) j
  · intro F hF j
    rw [hself] at hF
    have hF2 := Option.some.inj hF
    subst hF2
    exact centerRows_weighted_sum (preFeatures sq obj.mat vt) (inDeg obj.mat)
      (totalWeight obj.mat) hw.ne' (sum_inDeg obj.mat) j

/-- Witness for `centeringInvariant` at the concrete graph `matW`. -/
theorem centeringInvariant_witness :
    ∑ i in Finset.range
        (centerRows (preEmbedding sq0 objW.mat uW sigmaW) (outDeg objW.mat)
          (totalWeight objW.mat)).rows,
      outDeg objW.mat i *
        (centerRows (preEmbedding sq0 objW.mat uW sigmaW) (outDeg objW.mat)
          (totalWeight objW.mat)).entry i 0 = 0 :=
  (centeringInvariant sq0 rsvdW estW objW true 0 0 0
      (by norm_num [totalWeight, objW, matW, Finset.sum_range_succ]) rfl).1
    (centerRows (preEmbedding sq0 objW.mat uW sigmaW) (outDeg objW.mat)
      (totalWeight objW.mat)) rfl 0

end SknGsvd

namespace SknGsvd

/-- Claim C4: `fit` raises `TypeError` exactly when the adjacency is
neither a CSR matrix nor a dense ndarray, and an accepted input is
converted to a CSR object with the same entries before any processing. -/
theorem typeCheckIff (sq : ℚ → ℚ) (rsvd : DecompFun) (est : GSVDEmbedding)
    (obj : PyObject) (r : Bool) (nIter normIt seed : ℕ) :
    ((fit sq rsvd est obj r nIter normIt seed).err = some PyError.typeError ↔
      ¬ (obj.ty = PyType.csr_matrix ∨ obj.ty = PyType.ndarray)) ∧
    ((obj.ty = PyType.csr_matrix ∨ obj.ty = PyType.ndarray) →
      ∃ objA, toInternal obj = Except.ok objA ∧
        objA.ty = PyType.csr_matrix ∧ objA.mat = obj.mat) := by
  constructor
  · constructor
    · intro h
      rcases @fit_err_mem sq rsvd est obj r nIter normIt seed with h0 | ⟨h1, h2⟩ | h1 | h1
      · rw [h0] at h; exact absurd h (by decide)
      · exact fun hc => (toInternal_error_iff.mp h2) hc.symm
      · rw [h1] at h; exact absurd h (by decide)
      · rw [h1] at h; exact absurd h (by decide)
    · intro hinv
      have h2 : toInternal obj = Except.error PyError.typeError :=
        toInternal_error_iff.mpr (fun hc => hinv hc.symm)
      rw [fit_of_toInternal_error h2]
  · intro hv
    exact toInternal_ok_of_valid hv

/-- Witness for `typeCheckIff`: a list-of-lists input is rejected with
`TypeError`; a dense input is converted to a CSR object with the same
matrix. -/
theorem typeCheckIff_witness :
    (fit sq0 rsvdW estW ⟨PyType.list_of_lists, matW⟩ true 0 0 0).err = some PyError.typeError ∧
    (∃ objA, toInternal ⟨PyType.ndarray, matW⟩ = Except.ok objA ∧
      objA.ty = PyType.csr_matrix ∧ objA.mat = matW) :=
  ⟨(typeCheckIff sq0 rsvdW estW ⟨PyType.list_of_lists, matW⟩ true 0 0 0).1.mpr (by decide),
    (typeCheckIff sq0 rsvdW estW ⟨PyType.ndarray, matW⟩ true 0 0 0).2 (Or.inr rfl)⟩

/-- Claim C5: under the decomposer shape contract, a successful `fit` on an
`(n, m)` adjacency with `embedding_dimension = k` stores an `(n, k)`
embedding, an `(m, k)` features matrix, and `k` singular values. -/
theorem shapeInvariant (sq : ℚ → ℚ) (rsvd : DecompFun) (est : GSVDEmbedding)
    (obj : PyObject) (r : Bool) (nIter normIt seed : ℕ)
    (hc : DecomposerContract rsvd)
    (hok : (fit sq rsvd est obj r nIter normIt seed).err = none) :
    ∃ E F S,
      (fit sq rsvd est obj r nIter normIt seed).self.embedding_ = some E ∧
      (fit sq rsvd est obj r nIter normIt seed).self.features_ = some F ∧
      (fit sq rsvd est obj r nIter normIt seed).self.singular_values_ = some S ∧
      E.rows = obj.mat.rows ∧ E.cols = est.embedding_dimension ∧
      F.rows = obj.mat.cols ∧ F.cols = est.embedding_dimension ∧
      S.len = est.embedding_dimension := by
  obtain ⟨objA, u, sigma, vt, hti, hmat, hrt, hr, hself, hret⟩ := fit_success_inv hok
  obtain ⟨hu1, hu2, hs, hv1, hv2⟩ := hc _ _ _ _ _ _ _ _ hr
  refine ⟨centerRows (preEmbedding sq obj.mat u sigma) (outDeg obj.mat) (totalWeight obj.mat),
    centerRows (preFeatures sq obj.mat vt) (inDeg obj.mat) (totalWeight obj.mat),
    sigma, ?_, ?_, ?_, rfl, ?_, rfl, ?_, hs⟩
  · rw [hself]; rfl
  · rw [hself]; rfl
  · rw [hself]; rfl
  · exact hu2
  · exact hv1

/-- Witness for `shapeInvariant` at the concrete graph `matW`. -/
theorem shapeInvariant_witness :
    ∃ E F S,
      (fit sq0 rsvdW estW objW true 0 0 0).self.embedding_ = some E ∧
      (fit sq0 rsvdW estW objW true 0 0 0).self.features_ = some F ∧
      (fit sq0 rsvdW estW objW true 0 0 0).self.singular_values_ = some S ∧
      E.rows = objW.mat.rows ∧ E.cols = estW.embedding_dimension ∧
      F.rows = objW.mat.cols ∧ F.cols = estW.embedding_dimension ∧
      S.len = estW.embedding_dimension :=
  shapeInvariant sq0 rsvdW estW objW true 0 0 0 rsvdW_contract rfl

/-- Claim C6: the pre-centering rescaling is asymmetric — the stored
embedding is the centering of
`sqrt(w) * dhou.dot(u) * sigma` (columnwise broadcast, provably equal on
its index range to the matrix product with `diag(Σ)`), the stored features
are the centering of `sqrt(w) * dhin.dot(vt.T)` with no singular-value
factor, and the singular values are stored verbatim in decomposer order. -/
theorem rescaleAsymmetric (sq : ℚ → ℚ) (rsvd : DecompFun) (est : GSVDEmbedding)
    (obj objA : PyObject) (nIter normIt seed : ℕ) (u : Mat) (sigma : Vect) (vt : Mat)
    (hti : toInternal obj = Except.ok objA)
    (hr : rsvd (laplacianOf sq objA.mat) est.embedding_dimension nIter normIt seed =
      some (u, sigma, vt))
    (hlen : sigma.len = u.cols) :
    (fit sq rsvd est obj true nIter normIt seed).self.singular_values_ = some sigma ∧
    (fit sq rsvd est obj true nIter normIt seed).self.embedding_ =
      some (centerRows
        ((Mat.smul (sq (totalWeight objA.mat)) ((dhouOf sq objA.mat).mul u)).colScale
          sigma.entry)
        (outDeg objA.mat) (totalWeight objA.mat)) ∧
    Mat.EqOn
      ((Mat.smul (sq (totalWeight objA.mat)) ((dhouOf sq objA.mat).mul u)).colScale
        sigma.entry)
      (Mat.smul (sq (totalWeight objA.mat))
        (((dhouOf sq objA.mat).mul u).mul (diagOfVect sigma))) ∧
    (fit sq rsvd est obj true nIter normIt seed).self.features_ =
      some (centerRows
        (Mat.smul (sq (totalWeight objA.mat)) ((dhinOf sq objA.mat).mul vt.transpose))
        (inDeg objA.mat) (totalWeight objA.mat)) := by
  rw [fit_rand_some hti hr]
  exact ⟨rfl, rfl, smul_colScale_eqOn_diag _ _ _ hlen, rfl⟩

/-- Witness for `rescaleAsymmetric` at the concrete graph `matW`. -/
theorem rescaleAsymmetric_witness :
    (fit sq0 rsvdW estW objW true 0 0 0).self.singular_values_ = some sigmaW ∧
    (fit sq0 rsvdW estW objW true 0 0 0).self.embedding_ =
      some (centerRows
        ((Mat.smul (sq0 (totalWeight objW.mat)) ((dhouOf sq0 objW.mat).mul uW)).colScale
          sigmaW.entry)
        (outDeg objW.mat) (totalWeight objW.mat)) ∧
    Mat.EqOn
      ((Mat.smul (sq0 (totalWeight objW.mat)) ((dhouOf sq0 objW.mat).mul uW)).colScale
        sigmaW.entry)
      (Mat.smul (sq0 (totalWeight objW.mat))
        (((dhouOf sq0 objW.mat).mul uW).mul (diagOfVect sigmaW))) ∧
    (fit sq0 rsvdW estW objW true 0 0 0).self.features_ =
      some (centerRows
        (Mat.smul (sq0 (totalWeight objW.mat)) ((dhinOf sq0 objW.mat).mul vtW.transpose))
        (inDeg objW.mat) (totalWeight objW.mat)) :=
  rescaleAsymmetric sq0 rsvdW estW objW objW 0 0 0 uW sigmaW vtW rfl rfl rfl

/-- Claim C7: with the randomized branch, the same decomposer (hence the
same seed and forwarded parameters) and the same adjacency, two `fit`
calls store identical results — the outcome does not depend on the
estimator's prior result fields. -/
theorem fitDeterministic (sq : ℚ → ℚ) (rsvd : DecompFun) (est1 est2 : GSVDEmbedding)
    (obj : PyObject) (nIter normIt seed : ℕ)
    (hdim : est1.embedding_dimension = est2.embedding_dimension)
    (h1 : (fit sq rsvd est1 obj true nIter normIt seed).err = none) :
    (fit sq rsvd est2 obj true nIter normIt seed).err = none ∧
    (fit sq rsvd est1 obj true nIter normIt seed).self.embedding_ =
      (fit sq rsvd est2 obj true nIter normIt seed).self.embedding_ ∧
    (fit sq rsvd est1 obj true nIter normIt seed).self.features_ =
      (fit sq rsvd est2 obj true nIter normIt seed).self.features_ ∧
    (fit sq rsvd est1 obj true nIter normIt seed).self.singular_values_ =
      (fit sq rsvd est2 obj true nIter normIt seed).self.singular_values_ := by
  obtain ⟨objA, u, sigma, vt, hti, hmat, hrt, hr, hself, hret⟩ := fit_success_inv h1
  have hr2 : rsvd (laplacianOf sq objA.mat) est2.embedding_dimension nIter normIt seed =
      some (u, sigma, vt) := by
    rw [← hdim, hmat]; exact hr
  rw [fit_rand_some hti hr2, hself, hmat]
  exact ⟨rfl, rfl, rfl, rfl⟩

/-- Witness for `fitDeterministic`: estimators with different prior result
fields store the same results on the same input. -/
theorem fitDeterministic_witness :
    (fit sq0 rsvdW estV objW true 0 0 0).err = none ∧
    (fit sq0 rsvdW estW objW true 0 0 0).self.embedding_ =
      (fit sq0 rsvdW estV objW true 0 0 0).self.embedding_ ∧
    (fit sq0 rsvdW estW objW true 0 0 0).self.features_ =
      (fit sq0 rsvdW estV objW true 0 0 0).self.features_ ∧
    (fit sq0 rsvdW estW objW true 0 0 0).self.singular_values_ =
      (fit sq0 rsvdW estV objW true 0 0 0).self.singular_values_ :=
  fitDeterministic sq0 rsvdW estW estV objW 0 0 0 rfl rfl

/-- Claim C8: `fit` never mutates the caller's adjacency object, its only
estimator mutation is the three result fields (`embedding_dimension` is
untouched), and on success it returns the estimator object itself. -/
theorem fitFrame (sq : ℚ → ℚ) (rsvd : DecompFun) (est : GSVDEmbedding)
    (obj : PyObject) (r : Bool) (nIter normIt seed : ℕ) :
    (fit sq rsvd est obj r nIter normIt seed).adj = obj ∧
    (fit sq rsvd est obj r nIter normIt seed).self.embedding_dimension =
      est.embedding_dimension ∧
    ((fit sq rsvd est obj r nIter normIt seed).err = none →
      (fit sq rsvd est obj r nIter normIt seed).ret =
        some ((fit sq rsvd est obj r nIter normIt seed).self)) := by
  cases hti : toInternal obj with
  | error e =>
    rw [fit_of_toInternal_error hti]
    exact ⟨rfl, rfl, fun h => nomatch h⟩
  | ok objA =>
    cases r with
    | false =>
      rw [fit_exact_attr hti]
      exact ⟨rfl, rfl, fun h => nomatch h⟩
    | true =>
      cases hr : rsvd (laplacianOf sq objA.mat) est.embedding_dimension nIter normIt seed with
      | none =>
        rw [fit_rand_none hti hr]
        exact ⟨rfl, rfl, fun h => nomatch h⟩
      | some t =>
        obtain ⟨u, sigma, vt⟩ := t
        rw [fit_rand_some hti hr]
        exact ⟨rfl, rfl, fun _ => rfl⟩

/-- Witness for `fitFrame` at a successful concrete call. -/
theorem fitFrame_witness :
    (fit sq0 rsvdW estW objW true 0 0 0).adj = objW ∧
    (fit sq0 rsvdW estW objW true 0 0 0).ret =
      some ((fit sq0 rsvdW estW objW true 0 0 0).self) :=
  ⟨(fitFrame sq0 rsvdW estW objW true 0 0 0).1,
    (fitFrame sq0 rsvdW estW objW true 0 0 0).2.2 rfl⟩

/-- Claim C9: if `fit` raises any error, the estimator keeps exactly its
pre-call state (the three result fields are assigned only after the
decomposition has succeeded) and nothing is returned. -/
theorem fitErrorPreservesState (sq : ℚ → ℚ) (rsvd : DecompFun) (est : GSVDEmbedding)
    (obj : PyObject) (r : Bool) (nIter normIt seed : ℕ) (e : PyError)
    (h : (fit sq rsvd est obj r nIter normIt seed).err = some e) :
    (fit sq rsvd est obj r nIter normIt seed).self = est ∧
    (fit sq rsvd est obj r nIter normIt seed).ret = none := by
  cases hti : toInternal obj with
  | error e2 =>
    rw [fit_of_toInternal_error hti]
    exact ⟨rfl, rfl⟩
  | ok objA =>
    cases r with
    | false =>
      rw [fit_exact_attr hti]
      exact ⟨rfl, rfl⟩
    | true =>
      cases hr : rsvd (laplacianOf sq objA.mat) est.embedding_dimension nIter normIt seed with
      | none =>
        rw [fit_rand_none hti hr]
        exact ⟨rfl, rfl⟩
      | some t =>
        obtain ⟨u, sigma, vt⟩ := t
        rw [fit_rand_some hti hr] at h
        exact absurd h (by simp)

/-- Witness for `fitErrorPreservesState` at a rejected input. -/
theorem fitErrorPreservesState_witness :
    (fit sq0 rsvdW estW ⟨PyType.list_of_lists, matW⟩ true 0 0 0).self = estW :=
  (fitErrorPreservesState sq0 rsvdW estW ⟨PyType.list_of_lists, matW⟩ true 0 0 0
    PyError.typeError rfl).1

/-- Claim C10: the input check compares exact runtime types, so ndarray
subclasses (such as `np.matrix`) and the CSC, COO and LIL sparse formats,
as well as lists of lists, are all rejected with `TypeError`. -/
theorem exactTypeRejection (sq : ℚ → ℚ) (rsvd : DecompFun) (est : GSVDEmbedding)
    (obj : PyObject) (r : Bool) (nIter normIt seed : ℕ)
    (h : obj.ty = PyType.ndarray_subclass ∨ obj.ty = PyType.csc_matrix ∨
      obj.ty = PyType.coo_matrix ∨ obj.ty = PyType.lil_matrix ∨
      obj.ty = PyType.list_of_lists) :
    (fit sq rsvd est obj r nIter normIt seed).err = some PyError.typeError := by
  have hne : ¬ (obj.ty = PyType.ndarray ∨ obj.ty = PyType.csr_matrix) := by
    rcases h with h | h | h | h | h <;> rw [h] <;> decide
  rw [fit_of_toInternal_error (toInternal_error_iff.mpr hne)]

/-- Witness for `exactTypeRejection` at an `np.matrix`-like input (an
ndarray subclass). -/
theorem exactTypeRejection_witness :
    (fit sq0 rsvdW estW ⟨PyType.ndarray_subclass, matW⟩ true 0 0 0).err =
      some PyError.typeError :=
  exactTypeRejection sq0 rsvdW estW ⟨PyType.ndarray_subclass, matW⟩ true 0 0 0 (Or.inl rfl)

end SknGsvd
